import Mathlib

/-!
Verification of the document-intake / item-reconciliation core of the
Document-processing-OCR repository.

The frontend computes amounts with JavaScript numbers, i.e. IEEE-754
binary64 floating point.  We model a binary64 value as the rational it
denotes and model each JavaScript arithmetic operation as the exact
rational operation followed by rounding to the nearest binary64 value
(ties to even).  Overflow and subnormals are outside the range exercised
by the program values considered here and are not modelled: `roundD`
below is round-to-nearest-even with a 53-bit significand for every
rational, as if the exponent range were unbounded.
-/

/-- Fuel-driven floor of the base-2 logarithm of a natural number.
Structural recursion on the fuel keeps it kernel-reducible. -/
def log2fuel : Nat → Nat → Nat
  | 0, _ => 0
  | fuel + 1, n => if n ≤ 1 then 0 else log2fuel fuel (n / 2) + 1

/-- Floor of the base-2 logarithm of a natural number. -/
def natLog2 (n : Nat) : Nat := log2fuel n n

/-- Fuel-driven ceiling of the base-2 logarithm of a natural number. -/
def clog2fuel : Nat → Nat → Nat
  | 0, _ => 0
  | fuel + 1, n => if n ≤ 1 then 0 else clog2fuel fuel ((n + 1) / 2) + 1

/-- Ceiling of the base-2 logarithm of a natural number. -/
def natClog2 (n : Nat) : Nat := clog2fuel n n

/-- Integer power of two as a rational, kernel-reducible for both signs
of the exponent. -/
def pow2 (e : Int) : ℚ :=
  if 0 ≤ e then ((2 ^ e.toNat : Nat) : ℚ) else 1 / ((2 ^ (-e).toNat : Nat) : ℚ)

/-- Binade exponent of a positive rational: the unique `e` with
`2 ^ e ≤ q < 2 ^ (e + 1)`. -/
def ratExp (q : ℚ) : Int :=
  if 1 ≤ q then (natLog2 ⌊q⌋.toNat : Int) else -(natClog2 ⌈1 / q⌉.toNat : Int)

/-- Rounding of a rational to the nearest integer, ties to even. -/
def roundHalfEven (q : ℚ) : Int :=
  if q - (⌊q⌋ : ℚ) < 1 / 2 then ⌊q⌋
  else if 1 / 2 < q - (⌊q⌋ : ℚ) then ⌊q⌋ + 1
  else if 2 ∣ ⌊q⌋ then ⌊q⌋ else ⌊q⌋ + 1

/-- Round-to-nearest-even of a positive rational onto the grid of
binary64 significands (53 bits, unbounded exponent). -/
def roundPos (q : ℚ) : ℚ :=
  pow2 (ratExp q - 52) * ((roundHalfEven (q / pow2 (ratExp q - 52)) : Int) : ℚ)

/-- Binary64 round-to-nearest-even (unbounded exponent range), the
rounding applied by every JavaScript arithmetic operation. -/
def roundD (q : ℚ) : ℚ :=
  if q = 0 then 0 else if 0 < q then roundPos q else -roundPos (-q)

/-- Addition of JavaScript numbers: exact sum, then binary64 rounding. -/
def jsAdd (a b : ℚ) : ℚ := roundD (a + b)

/-- Multiplication of JavaScript numbers: exact product, then binary64
rounding. -/
def jsMul (a b : ℚ) : ℚ := roundD (a * b)

/-- Division of JavaScript numbers: exact quotient, then binary64
rounding. -/
def jsDiv (a b : ℚ) : ℚ := roundD (a / b)

/-!
Data model of the Confirm Items page (frontend route
`drafts/[docId]/confirm-items`): `MatchedItem` is one entry of the match
response rendered in the table, `ItemInput` is the user-edited row state
kept in the `itemInputs` record.  Optional numeric fields are `Option ℚ`;
the JavaScript truthiness test `!x` on such a field holds exactly when
the field is absent or zero (NaN is not modelled).
-/

/-- GST regime of a matched item: split domestic tax or single
interstate tax. -/
inductive GstType where
  | cgstSgst
  | igst
deriving DecidableEq

/-- One matched item of the reconciliation response (fields used by the
amount computation and validation; presentation-only fields omitted). -/
structure MatchedItem where
  bill_index : Int
  order_index : Int
  item_name : String
  total_quantity : Option ℚ
  billable_quantity : Option ℚ
  unit_rate : Option ℚ
  gst_type : Option GstType
deriving DecidableEq

/-- The user-edited state of one row of the confirm-items table. -/
structure ItemInput where
  bill_index : Int
  order_index : Int
  selected : Bool
  quantity : ℚ
  gst_rate : Option ℚ
  cgst_rate : Option ℚ
  sgst_rate : Option ℚ
deriving DecidableEq

/-- The `totalGstRate` local of `calculateAmount`: the CGST and SGST
inputs are added with JavaScript addition for the split regime, the
single IGST input is used for the interstate regime, and a missing
regime contributes zero. -/
def codeTotalGstRate (item : MatchedItem) (input : ItemInput) : ℚ :=
  match item.gst_type with
  | some GstType.cgstSgst => jsAdd (input.cgst_rate.getD 0) (input.sgst_rate.getD 0)
  | some GstType.igst => input.gst_rate.getD 0
  | none => 0

/-- Embedding of `calculateAmount` of the confirm-items page: returns 0
for an unselected row or a falsy unit rate, otherwise computes
`(quantity * unit_rate) * (1 + totalGstRate / 100)` in JavaScript
binary64 arithmetic. -/
def calculateAmount (item : MatchedItem) (input : ItemInput) : ℚ :=
  if input.selected = false ∨ item.unit_rate.getD 0 = 0 then 0
  else
    jsMul (jsMul input.quantity (item.unit_rate.getD 0))
      (jsAdd 1 (jsDiv (codeTotalGstRate item input) 100))

/-- Formalization of the total GST percentage as the spec words it:
`cgst_rate + sgst_rate` for the split regime, `igst_rate` for the
interstate regime (exact rational arithmetic). -/
def specTotalGstRate (item : MatchedItem) (input : ItemInput) : ℚ :=
  match item.gst_type with
  | some GstType.cgstSgst => input.cgst_rate.getD 0 + input.sgst_rate.getD 0
  | some GstType.igst => input.gst_rate.getD 0
  | none => 0

/-- Formalization of the amount formula as the spec words it:
`(quantity * unit_rate) * (1 + total_gst_rate_percent / 100)` in exact
fixed-point/decimal (here: rational) arithmetic. -/
def specAmount (item : MatchedItem) (input : ItemInput) : ℚ :=
  (input.quantity * item.unit_rate.getD 0) * (1 + specTotalGstRate item input / 100)

/-- Validation message for a non-positive quantity. -/
def qtyPositiveMsg (item : MatchedItem) : String :=
  "Quantity must be greater than 0 for item: " ++ item.item_name

/-- Validation message for a quantity above the billable quantity. -/
def exceedsBillableMsg (item : MatchedItem) (input : ItemInput) (b : ℚ) : String :=
  "Quantity " ++ toString input.quantity ++ " exceeds billable quantity " ++
    toString b ++ " for item: " ++ item.item_name

/-- Validation message for a missing CGST rate. -/
def cgstRequiredMsg (item : MatchedItem) : String :=
  "CGST rate is required for item: " ++ item.item_name

/-- Validation message for a missing SGST rate. -/
def sgstRequiredMsg (item : MatchedItem) : String :=
  "SGST rate is required for item: " ++ item.item_name

/-- Validation message for a missing IGST rate. -/
def igstRequiredMsg (item : MatchedItem) : String :=
  "IGST rate is required for item: " ++ item.item_name

/-- Validation message for an empty selection. -/
def atLeastOneItemMsg : String := "At least one item must be selected"

/-- The quantity checks of `validateInputs` for one selected row: the
quantity must be positive, and when `billable_quantity` is truthy
(present and nonzero) the quantity must not exceed it. -/
def quantityErrors (item : MatchedItem) (input : ItemInput) : List String :=
  (if input.quantity ≤ 0 then [qtyPositiveMsg item] else []) ++
    (match item.billable_quantity with
     | some b => if b ≠ 0 ∧ b < input.quantity then [exceedsBillableMsg item input b] else []
     | none => [])

/-- The GST checks of `validateInputs` for one selected row: a rate
field is in error exactly when it is absent (an explicit 0 counts as
present, mirroring the `!x && x !== 0` test). -/
def gstErrors (item : MatchedItem) (input : ItemInput) : List String :=
  match item.gst_type with
  | some GstType.cgstSgst =>
      (match input.cgst_rate with
       | none => [cgstRequiredMsg item]
       | some _ => []) ++
      (match input.sgst_rate with
       | none => [sgstRequiredMsg item]
       | some _ => [])
  | some GstType.igst =>
      match input.gst_rate with
      | none => [igstRequiredMsg item]
      | some _ => []
  | none => []

/-- The per-row body of the `matchedItems.forEach` loop of
`validateInputs`: unselected rows contribute nothing. -/
def itemErrors (item : MatchedItem) (input : ItemInput) : List String :=
  if input.selected then quantityErrors item input ++ gstErrors item input else []

/-- Lookup in the `itemInputs` record, keyed by the
`(bill_index, order_index)` pair that the page encodes as the string
`bill_index ++ "_" ++ order_index`. -/
def lookupInput : List ((Int × Int) × ItemInput) → Int × Int → Option ItemInput
  | [], _ => none
  | (k, v) :: rest, key => if k = key then some v else lookupInput rest key

/-- Errors contributed by one matched item, going through the
`itemInputs` lookup (a missing input is skipped like an unselected
one). -/
def itemErrorsFor (inputs : List ((Int × Int) × ItemInput)) (item : MatchedItem) : List String :=
  match lookupInput inputs (item.bill_index, item.order_index) with
  | none => []
  | some input => itemErrors item input

/-- Number of selected entries of the `itemInputs` record. -/
def selectedCount (inputs : List ((Int × Int) × ItemInput)) : Nat :=
  (inputs.filter (fun p => p.2.selected)).length

/-- Embedding of `validateInputs` of the confirm-items page: the errors
of every matched item are accumulated in table order, and a final check
requires at least one selected entry. -/
def validateInputs (matchedItems : List MatchedItem)
    (inputs : List ((Int × Int) × ItemInput)) : List String :=
  matchedItems.flatMap (itemErrorsFor inputs) ++
    (if selectedCount inputs = 0 then [atLeastOneItemMsg] else [])

/-- One element of the `items` payload sent by `saveDraft`. -/
structure SaveItem where
  bill_index : Int
  order_index : Int
  selected : Bool
  quantity : ℚ
  gst_rate : Option ℚ
  cgst_rate : Option ℚ
  sgst_rate : Option ℚ
deriving DecidableEq

/-- Conversion of one selected input row to its submission payload:
rows with an IGST input keep `gst_rate`, others send
`cgst_rate`/`sgst_rate` defaulted to 0. -/
def toSaveItem (input : ItemInput) : SaveItem :=
  { bill_index := input.bill_index
    order_index := input.order_index
    selected := true
    quantity := input.quantity
    gst_rate := if input.gst_rate.isSome then input.gst_rate else none
    cgst_rate := if input.gst_rate.isSome then none else some (input.cgst_rate.getD 0)
    sgst_rate := if input.gst_rate.isSome then none else some (input.sgst_rate.getD 0) }

/-- The `itemsToSave` computation of `handleSubmit`: selected entries of
the `itemInputs` record, mapped to their submission payloads. -/
def itemsToSave (inputs : List ((Int × Int) × ItemInput)) : List SaveItem :=
  (inputs.filter (fun p => p.2.selected)).map (fun p => toSaveItem p.2)

/-- Outcome of a submit of the confirm-items form: either the
validation errors are displayed and no request is issued, or a
`saveDraft` request with the selected items is issued. -/
inductive SubmitResult where
  | validationFailed (errors : List String)
  | draftSaveRequested (items : List SaveItem)
deriving DecidableEq

/-- Embedding of `handleSubmit` of the confirm-items page: validation
errors abort the submit before the `saveDraft` request is issued (so the
status of the Document cannot be touched); otherwise the selected items
are sent. -/
def handleSubmit (matchedItems : List MatchedItem)
    (inputs : List ((Int × Int) × ItemInput)) : SubmitResult :=
  let errors := validateInputs matchedItems inputs
  if 0 < errors.length then SubmitResult.validationFailed errors
  else SubmitResult.draftSaveRequested (itemsToSave inputs)

/-!
Embedding of the upload boundary (`FileUpload.tsx`): the dropzone is
configured with `accept` covering png/jpg/jpeg/pdf, `maxSize` of 5 MB
and `multiple: false`; `onDrop` turns the partitioned file lists into
an inline error, a single upload request, or nothing.  The partition
follows react-dropzone: each file is first checked individually against
`accept` and `maxSize` (type error before size error); then, because
`multiple` is false, if more than one file passed the individual checks
the library appends a rejection with the collective code
`too-many-files` for each of them and empties the accepted list.
`onDrop` maps only the two per-file codes to inline errors; any other
first rejection code falls through to the accepted-files checks.  Only
the `uploadRequest` outcome issues a network call (and hence a storage
write); `showError` and `noAction` issue nothing.
-/

/-- One dropped file, described by its name, extension and byte size. -/
structure UploadFile where
  name : String
  ext : String
  size : Nat
deriving DecidableEq

/-- The 5 MB upload cap of `FileUpload.tsx` (also the
`file_size_limit` of the `bill-uploads` storage bucket). -/
def MAX_FILE_SIZE : Nat := 5 * 1024 * 1024

/-- The allowed upload formats of `FileUpload.tsx`. -/
def ALLOWED_EXTENSIONS : List String := [".png", ".jpg", ".jpeg", ".pdf"]

/-- Dropzone rejection codes: the two per-file codes produced by the
configured filters, and the collective code react-dropzone attaches to
every file of a multi-file drop under `multiple: false`. -/
inductive RejectReason where
  | fileTooLarge
  | fileInvalidType
  | tooManyFiles
deriving DecidableEq

/-- The per-file dropzone filter induced by the `accept` and `maxSize`
configuration: a file passes exactly when its extension is allowed and
its size is at most the cap (the type error precedes the size error, as
in react-dropzone's per-file error list). -/
def classifyFile (f : UploadFile) : Option RejectReason :=
  if f.ext ∈ ALLOWED_EXTENSIONS then
    if MAX_FILE_SIZE < f.size then some RejectReason.fileTooLarge else none
  else some RejectReason.fileInvalidType

/-- Inline error for an oversize file. -/
def sizeErrorMsg : String :=
  "File size exceeds maximum allowed size of " ++
    toString (MAX_FILE_SIZE / (1024 * 1024)) ++ " MB"

/-- Inline error for a disallowed file type. -/
def typeErrorMsg : String :=
  "Invalid file type. Allowed formats: " ++ String.intercalate ", " ALLOWED_EXTENSIONS

/-- Inline error for more than one file. -/
def multipleFilesMsg : String := "Please upload only one file at a time"

/-- What a drop results in: an inline error, an upload request for one
file, or nothing. -/
inductive UploadAction where
  | showError (msg : String)
  | uploadRequest (f : UploadFile)
  | noAction
deriving DecidableEq

/-- Embedding of the `onDrop` callback: only the first rejection codes
`file-too-large` and `file-invalid-type` are mapped to inline errors
with an early return; any other first code (in particular the
collective `too-many-files`) falls through, like the source, to the
checks on the accepted files: more than one accepted file is an error,
no accepted file is a silent return, and a single file is uploaded. -/
def onDrop (acceptedFiles : List UploadFile)
    (rejectedFiles : List (UploadFile × RejectReason)) : UploadAction :=
  match rejectedFiles with
  | (_, RejectReason.fileTooLarge) :: _ => UploadAction.showError sizeErrorMsg
  | (_, RejectReason.fileInvalidType) :: _ => UploadAction.showError typeErrorMsg
  | _ =>
    if 1 < acceptedFiles.length then UploadAction.showError multipleFilesMsg
    else
      match acceptedFiles with
      | [] => UploadAction.noAction
      | f :: _ => UploadAction.uploadRequest f

/-- Files passing the per-file dropzone filters, in drop order. -/
def perFileAccepted (files : List UploadFile) : List UploadFile :=
  files.filter (fun f => (classifyFile f).isNone)

/-- Files rejected by the per-file dropzone filters, with their
reasons, in drop order. -/
def perFileRejected (files : List UploadFile) : List (UploadFile × RejectReason) :=
  files.filterMap (fun f => (classifyFile f).map (fun r => (f, r)))

/-- The dropzone partition under `multiple: false`, as react-dropzone
computes it: when more than one file passes the per-file filters, a
collective `too-many-files` rejection is appended for each of them
(after the per-file rejections) and the accepted list is emptied;
otherwise the per-file partition stands. -/
def dropzonePartition (files : List UploadFile) :
    List UploadFile × List (UploadFile × RejectReason) :=
  if 1 < (perFileAccepted files).length then
    ([], perFileRejected files ++
      (perFileAccepted files).map (fun f => (f, RejectReason.tooManyFiles)))
  else (perFileAccepted files, perFileRejected files)

/-- The accepted files handed to `onDrop`. -/
def dropzoneAccepted (files : List UploadFile) : List UploadFile :=
  (dropzonePartition files).1

/-- The rejected files handed to `onDrop`. -/
def dropzoneRejected (files : List UploadFile) : List (UploadFile × RejectReason) :=
  (dropzonePartition files).2

/-- The upload boundary: dropzone filtering followed by `onDrop`. -/
def submitFiles (files : List UploadFile) : UploadAction :=
  onDrop (dropzoneAccepted files) (dropzoneRejected files)

/-!
Spec-modelled components.  The backend (FastAPI routers and Celery
workers, written in Python) is not part of the repository snapshot under
verification: only its database migrations, its frontend callers and its
planning documents are.  The four definitions below therefore model the
missing backend behaviour from the spec, against the constraints that
are present in `backend/migrations/001_initial_schema.sql`.
-/

/-- One proposed bill-item/order-item pairing of a match response. -/
structure MatchPair where
  bill_index : Nat
  order_index : Nat
deriving DecidableEq

/-- Two pairings conflict when they share a bill index or an order
index. -/
def conflictB (p q : MatchPair) : Bool :=
  p.bill_index == q.bill_index || p.order_index == q.order_index

/-- Modelled from the spec: the assignment-resolution step of the Item
Reconciliation Engine (the Celery worker running the fuzzy match is not
under src).  Spec 4.3: each Bill Item maps to at most one Order Item,
each Order Item is consumed by at most one Bill Item, and the first Bill
Item wins a contested Order Item, so proposals are kept in extraction
order and dropped when they conflict with an already kept one. -/
def resolveFrom (used : List MatchPair) : List MatchPair → List MatchPair
  | [] => []
  | p :: rest =>
    if used.any (conflictB p) then resolveFrom used rest
    else p :: resolveFrom (p :: used) rest

/-- Resolution of a full proposal list, starting from no used pairs. -/
def resolveMatches (proposals : List MatchPair) : List MatchPair :=
  resolveFrom [] proposals

/-- One row of the `items` table (fields relevant to the claims). -/
structure DraftItemRow where
  item_name : String
  quantity : ℚ
  amount : ℚ
deriving DecidableEq

/-- One row of the `draft_bills` table together with its item rows
(written in the same transaction). -/
structure DraftBill where
  doc_id : Nat
  job_thread_id : Nat
  po_number : String
  items : List DraftItemRow
deriving DecidableEq

/-- Error taxonomy of the draft assembler. -/
inductive DraftSaveError where
  | duplicateDraftError
  | validationError
  | transactionError
deriving DecidableEq

/-- Modelled from the spec: the Draft Assembler persistence step (the
FastAPI `saveDraft` handler is not under src).  The insert is guarded by
the `unique_doc_draft UNIQUE (doc_id)` constraint of
`001_initial_schema.sql`: a second draft for the same document fails
with `duplicateDraftError` and the store is returned unchanged by the
failed transaction. -/
def saveDraft (store : List DraftBill) (d : DraftBill) :
    Except DraftSaveError (List DraftBill) :=
  if store.any (fun b => b.doc_id == d.doc_id) then
    Except.error DraftSaveError.duplicateDraftError
  else Except.ok (store ++ [d])

/-- Classified type of one page, per the `chk_doc_type` constraint. -/
inductive DocType where
  | bill
  | eway_bill
  | unknown
deriving DecidableEq

/-- One row of the `docs` table (fields relevant to the claims). -/
structure DocRow where
  job_thread_id : Nat
  page_number : Nat
  doc_type : DocType
  storage_uri : String
deriving DecidableEq

/-- Equality on the `(job_thread_id, page_number)` natural key of the
`docs` table (the `unique_job_page` constraint). -/
def sameDocKey (a b : DocRow) : Bool :=
  a.job_thread_id == b.job_thread_id && a.page_number == b.page_number

/-- Modelled from the spec: the Page Processor upsert of a Document
keyed by `(job, page_number)` (the Celery worker is not under src).
Spec 4.2: if a Document already exists for this page, overwrite rather
than duplicate; otherwise append. -/
def upsertDoc (docs : List DocRow) (d : DocRow) : List DocRow :=
  if docs.any (fun x => sameDocKey x d) then
    docs.map (fun x => if sameDocKey x d then d else x)
  else docs ++ [d]

/-- Job states, exactly the four values admitted by the `chk_status`
constraint of `job_threads`. -/
inductive JobStatus where
  | in_queue
  | processing
  | processed
  | error
deriving DecidableEq, Fintype

/-- Events of the job lifecycle; `retry` is the external admin action
offered by the jobs table UI. -/
inductive JobEvent where
  | begin
  | complete
  | fail
  | retry
deriving DecidableEq, Fintype

/-- Modelled from the spec: the Job State Machine (the Celery pipeline
is not under src).  Spec 4.1: `in_queue → processing → processed`
or `→ error`, and the only other transition is the external retry that
re-enqueues an errored job. -/
def jobTransition : JobStatus → JobEvent → Option JobStatus
  | JobStatus.in_queue, JobEvent.begin => some JobStatus.processing
  | JobStatus.processing, JobEvent.complete => some JobStatus.processed
  | JobStatus.processing, JobEvent.fail => some JobStatus.error
  | JobStatus.error, JobEvent.retry => some JobStatus.in_queue
  | _, _ => none

/-- Database spelling of each job state. -/
def statusName : JobStatus → String
  | JobStatus.in_queue => "in_queue"
  | JobStatus.processing => "processing"
  | JobStatus.processed => "processed"
  | JobStatus.error => "error"

/-- The status whitelist of the `chk_status` CHECK constraint. -/
def chkStatusAllowed : List String := ["in_queue", "processing", "processed", "error"]

/-- Progress rank of a job state; `processed` and `error` are both
terminal for the pipeline. -/
def statusRank : JobStatus → Nat
  | JobStatus.in_queue => 0
  | JobStatus.processing => 1
  | JobStatus.processed => 2
  | JobStatus.error => 2

/-- Embedding of the retry-button guard of the global jobs table
(`job.status === 'error' && ...` around the retry button). -/
def retryButtonShown (status : String) : Bool := status == "error"

/-- Formalization of the GST-regime field rule shared by the claimed and
amended rule sets: both CGST and SGST present for the split regime, the
single IGST rate present for the interstate regime. -/
def gstFieldsPresentB (item : MatchedItem) (input : ItemInput) : Bool :=
  match item.gst_type with
  | some GstType.cgstSgst => input.cgst_rate.isSome && input.sgst_rate.isSome
  | some GstType.igst => input.gst_rate.isSome
  | none => true

/-- Formalization of the validation rules exactly as the claim words
them, for one matched item: a selected item must have a positive
quantity, a quantity at most the billable quantity of its order item,
and the rate fields of its GST regime. -/
def claimedItemOkB (inputs : List ((Int × Int) × ItemInput)) (item : MatchedItem) : Bool :=
  match lookupInput inputs (item.bill_index, item.order_index) with
  | none => true
  | some input =>
    !input.selected ||
      (decide (0 < input.quantity) &&
        (match item.billable_quantity with
         | some b => decide (input.quantity ≤ b)
         | none => true) &&
        gstFieldsPresentB item input)

/-- Formalization of the full claimed rule set: every matched item
passes its per-item rules and at least one item is selected. -/
def claimedRulesB (items : List MatchedItem)
    (inputs : List ((Int × Int) × ItemInput)) : Bool :=
  items.all (claimedItemOkB inputs) && !(selectedCount inputs == 0)

/-- The amended per-item rule set: as claimed, except that the
quantity-cap rule applies only when the billable quantity is present and
nonzero (mirroring the truthiness guard of the code). -/
def amendedItemOkB (inputs : List ((Int × Int) × ItemInput)) (item : MatchedItem) : Bool :=
  match lookupInput inputs (item.bill_index, item.order_index) with
  | none => true
  | some input =>
    !input.selected ||
      (decide (0 < input.quantity) &&
        (match item.billable_quantity with
         | some b => b == 0 || decide (input.quantity ≤ b)
         | none => true) &&
        gstFieldsPresentB item input)

/-- The amended full rule set. -/
def amendedRulesB (items : List MatchedItem)
    (inputs : List ((Int × Int) × ItemInput)) : Bool :=
  items.all (amendedItemOkB inputs) && !(selectedCount inputs == 0)

/-- The matched item of the amount round-trip example of the spec:
unit rate 100 in the split GST regime. -/
def c1ExampleItem : MatchedItem :=
  { bill_index := 0, order_index := 0, item_name := "Round trip item",
    total_quantity := some 10, billable_quantity := some 10,
    unit_rate := some 100, gst_type := some GstType.cgstSgst }

/-- The input of the amount round-trip example of the spec: quantity 10,
CGST 9, SGST 9. -/
def c1ExampleInput : ItemInput :=
  { bill_index := 0, order_index := 0, selected := true, quantity := 10,
    gst_rate := none, cgst_rate := some 9, sgst_rate := some 9 }

/-- A matched item whose intermediate values are all exactly
representable in binary64. -/
def c1WitnessItem : MatchedItem :=
  { bill_index := 1, order_index := 1, item_name := "Exact item",
    total_quantity := some 20, billable_quantity := some 20,
    unit_rate := some 100, gst_type := some GstType.cgstSgst }

/-- An input whose intermediate values are all exactly representable in
binary64: total GST 25 percent, so the tax factor is 1.25. -/
def c1WitnessInput : ItemInput :=
  { bill_index := 1, order_index := 1, selected := true, quantity := 10,
    gst_rate := none, cgst_rate := some 10, sgst_rate := some 15 }

/-- A matched item with unit rate 1/4 (exactly representable in
binary64) in the split GST regime. -/
def c1CounterItem : MatchedItem :=
  { bill_index := 2, order_index := 2, item_name := "Quarter rate item",
    total_quantity := some 5, billable_quantity := some 5,
    unit_rate := some (1 / 4), gst_type := some GstType.cgstSgst }

/-- An input for the quarter rate item: quantity 3, CGST 9, SGST 9, so
the exact amount 0.885 is not representable in binary64. -/
def c1CounterInput : ItemInput :=
  { bill_index := 2, order_index := 2, selected := true, quantity := 3,
    gst_rate := none, cgst_rate := some 9, sgst_rate := some 9 }

/-- A split-regime matched item used for the zero-rate claim. -/
def c10Item : MatchedItem :=
  { bill_index := 3, order_index := 3, item_name := "Untaxed item",
    total_quantity := some 10, billable_quantity := some 10,
    unit_rate := some 100, gst_type := some GstType.cgstSgst }

/-- An input with both split-regime rates explicitly 0. -/
def c10Input : ItemInput :=
  { bill_index := 3, order_index := 3, selected := true, quantity := 10,
    gst_rate := none, cgst_rate := some 0, sgst_rate := some 0 }

/-- A matched item whose billable quantity is exactly 0. -/
def c9Item : MatchedItem :=
  { bill_index := 4, order_index := 4, item_name := "Exhausted item",
    total_quantity := some 5, billable_quantity := some 0,
    unit_rate := some 100, gst_type := some GstType.cgstSgst }

/-- An input requesting a huge quantity of the exhausted item. -/
def c9Input : ItemInput :=
  { bill_index := 4, order_index := 4, selected := true, quantity := 1000000,
    gst_rate := none, cgst_rate := some 9, sgst_rate := some 9 }

/-- A single matched item with billable quantity 0 in the split
regime. -/
def c3Items : List MatchedItem :=
  [{ bill_index := 0, order_index := 0, item_name := "Zero billable item",
     total_quantity := some 5, billable_quantity := some 0,
     unit_rate := some 100, gst_type := some GstType.cgstSgst }]

/-- A selected input requesting quantity 5 of the zero-billable item,
with both split-regime rates set. -/
def c3Inputs : List ((Int × Int) × ItemInput) :=
  [((0, 0), { bill_index := 0, order_index := 0, selected := true, quantity := 5,
              gst_rate := none, cgst_rate := some 9, sgst_rate := some 9 })]

/-- A valid single-page PDF upload. -/
def validPdfFile : UploadFile := { name := "bill.pdf", ext := ".pdf", size := 1024 }

/-- A second individually valid PDF upload. -/
def secondPdfFile : UploadFile := { name := "bill-2.pdf", ext := ".pdf", size := 2048 }

/-- An oversize PNG upload (6 MB, above the 5 MB cap). -/
def oversizePngFile : UploadFile :=
  { name := "big.png", ext := ".png", size := 6 * 1024 * 1024 }

/-- A first draft bill for document 1. -/
def w4draft : DraftBill :=
  { doc_id := 1, job_thread_id := 1, po_number := "PO-1001",
    items := [{ item_name := "Item A", quantity := 2, amount := 236 }] }

/-- A second draft bill for the same document 1. -/
def w4dup : DraftBill :=
  { doc_id := 1, job_thread_id := 1, po_number := "PO-1001",
    items := [{ item_name := "Item B", quantity := 1, amount := 118 }] }

/-- A document row for page 1 of job 1. -/
def w5doc : DocRow :=
  { job_thread_id := 1, page_number := 1, doc_type := DocType.bill,
    storage_uri := "storage/jobs/1/page-1.png" }

/-- A rerun result for the same page, with a different classification
and storage URI. -/
def w5new : DocRow :=
  { job_thread_id := 1, page_number := 1, doc_type := DocType.eway_bill,
    storage_uri := "storage/jobs/1/page-1-rerun.png" }

theorem log2fuel_succ (fuel n : Nat) :
    log2fuel (fuel + 1) n = if n ≤ 1 then 0 else log2fuel fuel (n / 2) + 1 := rfl

theorem clog2fuel_succ (fuel n : Nat) :
    clog2fuel (fuel + 1) n = if n ≤ 1 then 0 else clog2fuel fuel ((n + 1) / 2) + 1 := rfl

theorem log2fuel_spec : ∀ fuel n, 1 ≤ n → n ≤ fuel →
    2 ^ log2fuel fuel n ≤ n ∧ n < 2 ^ (log2fuel fuel n + 1) := by
  intro fuel
  induction fuel with
  | zero => intro n h1 h2; omega
  | succ fuel ih =>
    intro n h1 h2
    by_cases hn : n ≤ 1
    · have : n = 1 := by omega
      simp [log2fuel, hn, this]
    · have hrec := ih (n / 2) (by omega) (by omega)
      simp only [log2fuel, if_neg hn]
      set k := log2fuel fuel (n / 2) with hk
      have e1 : 2 ^ (k + 1) = 2 ^ k * 2 := pow_succ 2 k
      have e2 : 2 ^ (k + 1 + 1) = 2 ^ (k + 1) * 2 := pow_succ 2 (k + 1)
      omega

theorem clog2fuel_spec : ∀ fuel n, 1 ≤ n → n ≤ fuel →
    n ≤ 2 ^ clog2fuel fuel n ∧ (2 ≤ n → 2 ^ (clog2fuel fuel n - 1) < n) := by
  intro fuel
  induction fuel with
  | zero => intro n h1 h2; omega
  | succ fuel ih =>
    intro n h1 h2
    by_cases hn : n ≤ 1
    · have : n = 1 := by omega
      simp [clog2fuel, hn, this]
    · have hrec := ih ((n + 1) / 2) (by omega) (by omega)
      simp only [clog2fuel, if_neg hn]
      set k := clog2fuel fuel ((n + 1) / 2) with hk
      have e1 : 2 ^ (k + 1) = 2 ^ k * 2 := pow_succ 2 k
      refine ⟨by omega, fun _ => ?_⟩
      simp only [Nat.add_sub_cancel]
      by_cases hm : (n + 1) / 2 ≤ 1
      · have hk0 : k = 0 := by
          rw [hk]
          cases fuel with
          | zero => rfl
          | succ fuel => rw [clog2fuel_succ, if_pos hm]
        have hpk : 2 ^ k = 1 := by rw [hk0]; rfl
        omega
      · have hk1 : k ≠ 0 := by
          intro h0
          have := hrec.1
          rw [h0] at this
          omega
        have h2 := hrec.2 (by omega)
        have e6 : (2 : Nat) ^ k = 2 ^ (k - 1) * 2 := by
          have ek : k - 1 + 1 = k := by omega
          calc (2 : Nat) ^ k = 2 ^ (k - 1 + 1) := by rw [ek]
            _ = 2 ^ (k - 1) * 2 := pow_succ 2 (k - 1)
        omega

theorem natLog2_spec (n : Nat) (h : 1 ≤ n) :
    2 ^ natLog2 n ≤ n ∧ n < 2 ^ (natLog2 n + 1) :=
  log2fuel_spec n n h le_rfl

theorem natClog2_spec (n : Nat) (h : 1 ≤ n) :
    n ≤ 2 ^ natClog2 n ∧ (2 ≤ n → 2 ^ (natClog2 n - 1) < n) :=
  clog2fuel_spec n n h le_rfl

theorem pow2_eq_zpow (e : Int) : pow2 e = (2 : ℚ) ^ e := by
  unfold pow2
  by_cases h : 0 ≤ e
  · rw [if_pos h]
    push_cast
    rw [← zpow_natCast (2 : ℚ) e.toNat, Int.toNat_of_nonneg h]
  · rw [if_neg h]
    push_cast
    rw [one_div, ← zpow_natCast (2 : ℚ) (-e).toNat,
      Int.toNat_of_nonneg (by omega), ← zpow_neg, neg_neg]

theorem pow2_pos (e : Int) : 0 < pow2 e := by
  rw [pow2_eq_zpow]; exact zpow_pos (by norm_num) e

theorem pow2_ne_zero (e : Int) : pow2 e ≠ 0 := ne_of_gt (pow2_pos e)

theorem pow2_add (a b : Int) : pow2 (a + b) = pow2 a * pow2 b := by
  rw [pow2_eq_zpow, pow2_eq_zpow, pow2_eq_zpow,
    zpow_add₀ (by norm_num : (2 : ℚ) ≠ 0)]

theorem pow2_mono {a b : Int} (h : a ≤ b) : pow2 a ≤ pow2 b := by
  rw [pow2_eq_zpow, pow2_eq_zpow]
  exact zpow_le_zpow_right₀ (by norm_num) h

theorem pow2_natCast (n : Nat) : pow2 (n : Int) = (2 : ℚ) ^ n := by
  rw [pow2_eq_zpow, zpow_natCast]

theorem ratExp_spec (q : ℚ) (hq : 0 < q) :
    pow2 (ratExp q) ≤ q ∧ q < pow2 (ratExp q + 1) := by
  unfold ratExp
  by_cases h1 : 1 ≤ q
  · rw [if_pos h1]
    have hfl : (1 : Int) ≤ ⌊q⌋ := Int.le_floor.mpr (by exact_mod_cast h1)
    have hn1 : 1 ≤ ⌊q⌋.toNat := by omega
    obtain ⟨hlo, hhi⟩ := natLog2_spec ⌊q⌋.toNat hn1
    set L := natLog2 ⌊q⌋.toNat with hL
    have hcast : ((⌊q⌋.toNat : Nat) : ℚ) = ((⌊q⌋ : Int) : ℚ) := by
      exact_mod_cast congrArg (fun z : Int => (z : ℚ))
        (Int.toNat_of_nonneg (by omega : (0 : Int) ≤ ⌊q⌋))
    constructor
    · rw [pow2_natCast]
      calc (2 : ℚ) ^ L ≤ ((⌊q⌋.toNat : Nat) : ℚ) := by exact_mod_cast hlo
        _ = ((⌊q⌋ : Int) : ℚ) := hcast
        _ ≤ q := Int.floor_le q
    · have hp : pow2 ((L : Int) + 1) = (2 : ℚ) ^ (L + 1) := by
        rw [show ((L : Int) + 1) = ((L + 1 : Nat) : Int) by omega, pow2_natCast]
      rw [hp]
      have hq1 : q < ((⌊q⌋ : Int) : ℚ) + 1 := Int.lt_floor_add_one q
      have hstep : ((⌊q⌋ : Int) : ℚ) + 1 ≤ (2 : ℚ) ^ (L + 1) := by
        rw [← hcast]
        have : ⌊q⌋.toNat + 1 ≤ 2 ^ (L + 1) := by omega
        exact_mod_cast this
      linarith
  · rw [if_neg h1]
    have hq1 : 1 < 1 / q := by
      rw [lt_div_iff₀ hq]
      linarith [not_le.mp h1]
    have hceil2 : (2 : Int) ≤ ⌈1 / q⌉ := by
      have h2 : (1 : Int) < ⌈1 / q⌉ := by exact_mod_cast Int.lt_ceil.mpr hq1
      omega
    have hn2 : 2 ≤ ⌈1 / q⌉.toNat := by omega
    obtain ⟨hup, hdown⟩ := natClog2_spec ⌈1 / q⌉.toNat (by omega)
    have hdown2 := hdown hn2
    set C := natClog2 ⌈1 / q⌉.toNat with hC
    have hC1 : 1 ≤ C := by
      by_contra hc
      have hc0 : C = 0 := by omega
      rw [hc0] at hup
      omega
    have hcastn : ((⌈1 / q⌉.toNat : Nat) : ℚ) = ((⌈1 / q⌉ : Int) : ℚ) := by
      exact_mod_cast congrArg (fun z : Int => (z : ℚ))
        (Int.toNat_of_nonneg (by omega : (0 : Int) ≤ ⌈1 / q⌉))
    have hA : 1 / q ≤ (2 : ℚ) ^ C := by
      calc 1 / q ≤ ((⌈1 / q⌉ : Int) : ℚ) := Int.le_ceil (1 / q)
        _ = ((⌈1 / q⌉.toNat : Nat) : ℚ) := hcastn.symm
        _ ≤ (2 : ℚ) ^ C := by exact_mod_cast hup
    have hB : (2 : ℚ) ^ (C - 1) < 1 / q := by
      have hstep : (2 : ℚ) ^ (C - 1) ≤ ((⌈1 / q⌉.toNat : Nat) : ℚ) - 1 := by
        have : 2 ^ (C - 1) + 1 ≤ ⌈1 / q⌉.toNat := by omega
        have hcast2 : ((2 ^ (C - 1) + 1 : Nat) : ℚ) ≤ ((⌈1 / q⌉.toNat : Nat) : ℚ) := by
          exact_mod_cast this
        push_cast at hcast2
        linarith
      have hceil_lt : ((⌈1 / q⌉ : Int) : ℚ) < 1 / q + 1 := Int.ceil_lt_add_one (1 / q)
      rw [hcastn] at hstep
      linarith
    constructor
    · have hp : pow2 (-(C : Int)) = ((2 : ℚ) ^ C)⁻¹ := by
        rw [pow2_eq_zpow, zpow_neg, zpow_natCast]
      rw [hp, inv_eq_one_div, div_le_iff₀ (by positivity : (0 : ℚ) < (2 : ℚ) ^ C)]
      have := (div_le_iff₀ hq).mp hA
      linarith [mul_comm q ((2 : ℚ) ^ C)]
    · have hp : pow2 (-(C : Int) + 1) = ((2 : ℚ) ^ (C - 1))⁻¹ := by
        rw [pow2_eq_zpow,
          show (-(C : Int) + 1) = -((C : Int) - 1) by ring, zpow_neg,
          show ((C : Int) - 1) = ((C - 1 : Nat) : Int) by omega, zpow_natCast]
      rw [hp, inv_eq_one_div, lt_div_iff₀ (by positivity : (0 : ℚ) < (2 : ℚ) ^ (C - 1))]
      have := (lt_div_iff₀ hq).mp hB
      linarith [mul_comm q ((2 : ℚ) ^ (C - 1))]

theorem ratExp_unique (q : ℚ) (z : Int) (hq : 0 < q)
    (h1 : pow2 z ≤ q) (h2 : q < pow2 (z + 1)) : ratExp q = z := by
  obtain ⟨hlo, hhi⟩ := ratExp_spec q hq
  by_contra hne
  rcases lt_or_gt_of_ne hne with h | h
  · have : pow2 (ratExp q + 1) ≤ pow2 z := pow2_mono (by omega)
    linarith
  · have : pow2 (z + 1) ≤ pow2 (ratExp q) := pow2_mono (by omega)
    linarith

theorem pow2_strict_mono {a b : Int} (h : a < b) : pow2 a < pow2 b := by
  rw [pow2_eq_zpow, pow2_eq_zpow]
  exact zpow_lt_zpow_right₀ (by norm_num) h

theorem pow2_fifty_two : pow2 52 = ((2 ^ 52 : Int) : ℚ) := by
  rw [show (52 : Int) = ((52 : Nat) : Int) by norm_num, pow2_natCast]
  push_cast
  ring

theorem pow2_fifty_three : pow2 53 = ((2 ^ 53 : Int) : ℚ) := by
  rw [show (53 : Int) = ((53 : Nat) : Int) by norm_num, pow2_natCast]
  push_cast
  ring

theorem roundHalfEven_intCast (n : Int) : roundHalfEven ((n : Int) : ℚ) = n := by
  unfold roundHalfEven
  rw [Int.floor_intCast]
  norm_num

theorem roundHalfEven_bounds (q : ℚ) :
    ⌊q⌋ ≤ roundHalfEven q ∧ roundHalfEven q ≤ ⌊q⌋ + 1 := by
  unfold roundHalfEven
  split_ifs <;> omega

theorem roundPos_mantissa_bounds (q : ℚ) (hq : 0 < q) :
    pow2 52 ≤ q / pow2 (ratExp q - 52) ∧ q / pow2 (ratExp q - 52) < pow2 53 := by
  obtain ⟨hlo, hhi⟩ := ratExp_spec q hq
  set e := ratExp q with he
  have hs : 0 < pow2 (e - 52) := pow2_pos _
  constructor
  · rw [le_div_iff₀ hs]
    calc pow2 52 * pow2 (e - 52) = pow2 (52 + (e - 52)) := (pow2_add _ _).symm
      _ = pow2 e := by congr 1; ring
      _ ≤ q := hlo
  · rw [div_lt_iff₀ hs]
    calc q < pow2 (e + 1) := hhi
      _ = pow2 (53 + (e - 52)) := by congr 1; ring
      _ = pow2 53 * pow2 (e - 52) := pow2_add _ _

theorem roundPos_eq_mul (q : ℚ) :
    roundPos q =
      pow2 (ratExp q - 52) * ((roundHalfEven (q / pow2 (ratExp q - 52)) : Int) : ℚ) := rfl

theorem roundPos_pos (q : ℚ) (hq : 0 < q) : 0 < roundPos q := by
  obtain ⟨h52, _⟩ := roundPos_mantissa_bounds q hq
  have hs : 0 < pow2 (ratExp q - 52) := pow2_pos _
  have hone : (1 : ℚ) ≤ pow2 52 := by
    rw [pow2_fifty_two]; norm_num
  have hfl : (1 : Int) ≤ ⌊q / pow2 (ratExp q - 52)⌋ := by
    apply Int.le_floor.mpr
    push_cast
    linarith
  have hm := (roundHalfEven_bounds (q / pow2 (ratExp q - 52))).1
  have hmq : (0 : ℚ) < ((roundHalfEven (q / pow2 (ratExp q - 52)) : Int) : ℚ) := by
    exact_mod_cast (by omega : (0 : Int) < roundHalfEven (q / pow2 (ratExp q - 52)))
  exact mul_pos hs hmq

theorem roundPos_idem (q : ℚ) (hq : 0 < q) : roundPos (roundPos q) = roundPos q := by
  obtain ⟨h52, h53⟩ := roundPos_mantissa_bounds q hq
  set e := ratExp q with he
  set s := pow2 (e - 52) with hs_def
  have hs : 0 < s := pow2_pos _
  set m := roundHalfEven (q / s) with hm_def
  have hmlo : (2 : Int) ^ 52 ≤ m := by
    have hfl : (2 : Int) ^ 52 ≤ ⌊q / s⌋ := by
      apply Int.le_floor.mpr
      rw [← pow2_fifty_two]
      exact h52
    exact le_trans hfl (roundHalfEven_bounds (q / s)).1
  have hmhi : m ≤ 2 ^ 53 := by
    have hfl : ⌊q / s⌋ < (2 : Int) ^ 53 := by
      apply Int.floor_lt.mpr
      rw [← pow2_fifty_three]
      exact h53
    have := (roundHalfEven_bounds (q / s)).2
    omega
  have hx : roundPos q = s * (m : ℚ) := rfl
  have hcast52 : ((2 ^ 52 : Int) : ℚ) ≤ (m : ℚ) := by exact_mod_cast hmlo
  by_cases hm53 : m < 2 ^ 53
  · -- the rounded value stays in the binade of q
    have hcast53 : (m : ℚ) < ((2 ^ 53 : Int) : ℚ) := by exact_mod_cast hm53
    have hxe : ratExp (s * (m : ℚ)) = e := by
      apply ratExp_unique _ _ (by positivity)
      · calc pow2 e = pow2 (52 + (e - 52)) := by congr 1; ring
          _ = pow2 52 * s := pow2_add _ _
          _ = ((2 ^ 52 : Int) : ℚ) * s := by rw [pow2_fifty_two]
          _ ≤ (m : ℚ) * s := by nlinarith
          _ = s * (m : ℚ) := mul_comm _ _
      · calc s * (m : ℚ) < s * ((2 ^ 53 : Int) : ℚ) := by nlinarith
          _ = ((2 ^ 53 : Int) : ℚ) * s := mul_comm _ _
          _ = pow2 53 * s := by rw [pow2_fifty_three]
          _ = pow2 (53 + (e - 52)) := (pow2_add _ _).symm
          _ = pow2 (e + 1) := by congr 1; ring
    rw [hx, roundPos_eq_mul, hxe, ← hs_def]
    have hdiv : s * (m : ℚ) / s = (m : ℚ) := by
      field_simp
    rw [hdiv, roundHalfEven_intCast]
  · -- the mantissa rounded up to 2 ^ 53: the value is the next power of two
    have hm53eq : m = 2 ^ 53 := by omega
    have hval : s * (m : ℚ) = pow2 (e + 1) := by
      rw [hm53eq, show ((2 ^ 53 : Int) : ℚ) = pow2 53 from pow2_fifty_three.symm,
        mul_comm, ← pow2_add]
      congr 1
      ring
    have hxe : ratExp (s * (m : ℚ)) = e + 1 := by
      apply ratExp_unique _ _ (by positivity)
      · rw [hval]
      · rw [hval]
        exact pow2_strict_mono (by omega)
    rw [hx, roundPos_eq_mul, hxe]
    have h1 : pow2 (e + 1) = pow2 (e + 1 - 52) * pow2 52 := by
      rw [← pow2_add]
      congr 1
      ring
    have hstep : s * (m : ℚ) / pow2 (e + 1 - 52) = ((2 ^ 52 : Int) : ℚ) := by
      rw [hval, h1, mul_div_cancel_left₀ _ (pow2_ne_zero _), pow2_fifty_two]
    rw [hstep, roundHalfEven_intCast, hval, h1, pow2_fifty_two]

theorem roundD_idem (q : ℚ) : roundD (roundD q) = roundD q := by
  unfold roundD
  by_cases h0 : q = 0
  · simp [h0]
  · by_cases hpos : 0 < q
    · rw [if_neg h0, if_pos hpos]
      have hp := roundPos_pos q hpos
      rw [if_neg (ne_of_gt hp), if_pos hp]
      exact roundPos_idem q hpos
    · rw [if_neg h0, if_neg hpos]
      have hqneg : 0 < -q := by
        rcases lt_trichotomy q 0 with h | h | h
        · linarith
        · exact absurd h h0
        · exact absurd h hpos
      have hp := roundPos_pos (-q) hqneg
      rw [if_neg (by linarith : -roundPos (-q) ≠ 0),
        if_neg (by linarith : ¬0 < -roundPos (-q)), neg_neg]
      congr 1
      exact roundPos_idem (-q) hqneg

section ConcreteEvaluation

attribute [local semireducible] Rat.mul Rat.add Rat.sub Rat.inv

theorem roundD_zero : roundD 0 = 0 := by decide

theorem jsDiv_zero_hundred : jsDiv 0 100 = 0 := by decide

theorem jsAdd_one_zero : jsAdd 1 0 = 1 := by decide

/-- C1 (amended): `calculateAmount` evaluates the spec formula
`(quantity * unit_rate) * (1 + total_gst_rate_percent / 100)` in IEEE-754
binary64 arithmetic, rounding to nearest (ties to even) after every
operation.  Whenever every intermediate value is exactly representable
in binary64 the result coincides with the exact fixed-point/decimal
value of the formula, and the round-trip example quantity=10,
unit_rate=100, cgst_rate=9, sgst_rate=9 yields exactly 1180.00 even in
floating point; the arithmetic is binary floating point, however, not
exact decimal arithmetic (see the counterexample). -/
theorem calculateAmount_binary64 :
    (∀ (item : MatchedItem) (input : ItemInput),
      input.selected = true →
      roundD (input.cgst_rate.getD 0 + input.sgst_rate.getD 0) =
        input.cgst_rate.getD 0 + input.sgst_rate.getD 0 →
      roundD (specTotalGstRate item input / 100) = specTotalGstRate item input / 100 →
      roundD (1 + specTotalGstRate item input / 100) =
        1 + specTotalGstRate item input / 100 →
      roundD (input.quantity * item.unit_rate.getD 0) =
        input.quantity * item.unit_rate.getD 0 →
      roundD (input.quantity * item.unit_rate.getD 0 *
          (1 + specTotalGstRate item input / 100)) =
        input.quantity * item.unit_rate.getD 0 *
          (1 + specTotalGstRate item input / 100) →
      calculateAmount item input = specAmount item input) ∧
    calculateAmount c1ExampleItem c1ExampleInput = 1180 := by
  constructor
  · intro item input hsel hadd hdiv hone hmul hfinal
    have htot : codeTotalGstRate item input = specTotalGstRate item input := by
      unfold codeTotalGstRate specTotalGstRate
      rcases item.gst_type with _ | g
      · rfl
      · cases g
        · exact hadd
        · rfl
    unfold calculateAmount specAmount
    by_cases hrate : item.unit_rate.getD 0 = 0
    · rw [if_pos (Or.inr hrate), hrate, mul_zero, zero_mul]
    · rw [if_neg (by simp [hsel, hrate]), htot]
      unfold jsMul jsAdd jsDiv
      rw [hdiv, hone, hmul, hfinal]
  · decide

/-- C1 counterexample: at quantity 3, unit rate 1/4 (exactly
representable in binary64), CGST 9 and SGST 9, the computed amount
differs from the exact value 0.885 of the spec formula, because the
arithmetic is binary floating point and 0.885 is not representable.  The
row is selected and its unit rate is defined, so the claim as stated
applies to it. -/
theorem calculateAmount_not_exact_decimal :
    c1CounterInput.selected = true ∧
    c1CounterItem.unit_rate = some (1 / 4) ∧
    specAmount c1CounterItem c1CounterInput = 177 / 200 ∧
    calculateAmount c1CounterItem c1CounterInput ≠
      specAmount c1CounterItem c1CounterInput := by
  refine ⟨rfl, rfl, by decide, by decide⟩

/-- Witness for the amended C1: at an input whose intermediates are all
binary64-representable (quantity 10, rate 100, total GST 25 percent) the
floating-point amount equals the exact formula value, and the spec
round-trip example evaluates to exactly 1180. -/
theorem calculateAmount_binary64_witness :
    calculateAmount c1WitnessItem c1WitnessInput = specAmount c1WitnessItem c1WitnessInput ∧
    calculateAmount c1ExampleItem c1ExampleInput = 1180 :=
  ⟨calculateAmount_binary64.1 c1WitnessItem c1WitnessInput rfl (by decide) (by decide)
      (by decide) (by decide) (by decide),
    calculateAmount_binary64.2⟩

/-- C10: a rate of exactly 0 counts as present.  A selected split-regime
row with `cgst_rate = 0` and `sgst_rate = 0`, or a selected interstate
row with `gst_rate = 0`, produces no GST validation error, and its
computed amount is the plain binary64 product of quantity and unit rate
(no tax factor). -/
theorem zero_tax_rate_accepted :
    ∀ (item : MatchedItem) (input : ItemInput) (r : ℚ),
      input.selected = true →
      item.unit_rate = some r →
      (item.gst_type = some GstType.cgstSgst ∧
          input.cgst_rate = some 0 ∧ input.sgst_rate = some 0) ∨
        (item.gst_type = some GstType.igst ∧ input.gst_rate = some 0) →
      gstErrors item input = [] ∧ calculateAmount item input = jsMul input.quantity r := by
  intro item input r hsel hrate hcase
  have htot : codeTotalGstRate item input = 0 := by
    unfold codeTotalGstRate
    rcases hcase with ⟨hg, hc, hs⟩ | ⟨hg, hi⟩
    · simp only [hg, hc, hs, Option.getD_some]
      decide
    · simp only [hg, hi, Option.getD_some]
  constructor
  · rcases hcase with ⟨hg, hc, hs⟩ | ⟨hg, hi⟩
    · simp [gstErrors, hg, hc, hs]
    · simp [gstErrors, hg, hi]
  · unfold calculateAmount
    rw [hrate]
    by_cases hr : r = 0
    · rw [if_pos (Or.inr (by simp [hr]))]
      unfold jsMul
      rw [hr, mul_zero]
      exact roundD_zero.symm
    · rw [if_neg (by simp [hsel, hr]), htot, jsDiv_zero_hundred, jsAdd_one_zero]
      show jsMul (jsMul input.quantity r) 1 = jsMul input.quantity r
      unfold jsMul
      rw [mul_one]
      exact roundD_idem _
  
/-- Witness for C10: quantity 10 at rate 100 with both split rates 0
passes the GST checks and yields exactly 1000. -/
theorem zero_tax_rate_accepted_witness :
    gstErrors c10Item c10Input = [] ∧ calculateAmount c10Item c10Input = 1000 := by
  have h := zero_tax_rate_accepted c10Item c10Input 100 rfl rfl (Or.inl ⟨rfl, rfl, rfl⟩)
  exact ⟨h.1, h.2.trans (by decide)⟩

/-- C9: when the billable quantity of a matched item is absent or zero,
the quantity validation of that row consists of the positivity check
alone: no exceeds-billable error is emitted no matter how large the
requested quantity is. -/
theorem falsy_billable_skips_cap_check :
    ∀ (item : MatchedItem) (input : ItemInput),
      item.billable_quantity = none ∨ item.billable_quantity = some 0 →
      quantityErrors item input =
        (if input.quantity ≤ 0 then [qtyPositiveMsg item] else []) ∧
      (input.selected = true →
        itemErrors item input =
          (if input.quantity ≤ 0 then [qtyPositiveMsg item] else []) ++
            gstErrors item input) := by
  intro item input hb
  have hq : quantityErrors item input =
      (if input.quantity ≤ 0 then [qtyPositiveMsg item] else []) := by
    unfold quantityErrors
    rcases hb with hb | hb <;> rw [hb] <;> simp
  refine ⟨hq, fun hsel => ?_⟩
  unfold itemErrors
  rw [hsel, if_pos rfl, hq]

/-- Witness for C9: a selected row requesting quantity 1000000 of an
item with billable quantity 0 receives no quantity error at all. -/
theorem falsy_billable_skips_cap_check_witness :
    quantityErrors c9Item c9Input = [] := by
  have h := (falsy_billable_skips_cap_check c9Item c9Input (Or.inr rfl)).1
  rw [h]
  decide

end ConcreteEvaluation

section ValidationClaims

attribute [local semireducible] Rat.mul Rat.add Rat.sub Rat.inv

theorem gstErrors_eq_nil_iff (item : MatchedItem) (input : ItemInput) :
    gstErrors item input = [] ↔ gstFieldsPresentB item input = true := by
  unfold gstErrors gstFieldsPresentB
  rcases item.gst_type with _ | g
  · simp
  · cases g
    · rcases input.cgst_rate with _ | c <;> rcases input.sgst_rate with _ | s <;> simp
    · rcases input.gst_rate with _ | i <;> simp

theorem quantityErrors_eq_nil_iff (item : MatchedItem) (input : ItemInput) :
    quantityErrors item input = [] ↔
      (decide (0 < input.quantity) &&
        (match item.billable_quantity with
         | some b => b == 0 || decide (input.quantity ≤ b)
         | none => true)) = true := by
  unfold quantityErrors
  rcases item.billable_quantity with _ | b
  · by_cases hq : input.quantity ≤ 0
    · have h1 : ¬(0 : ℚ) < input.quantity := not_lt.mpr hq
      simp [hq, h1]
    · have h1 : (0 : ℚ) < input.quantity := not_le.mp hq
      simp [hq, h1]
  · by_cases hq : input.quantity ≤ 0
    · have h1 : ¬(0 : ℚ) < input.quantity := not_lt.mpr hq
      simp [hq, h1]
    · have h1 : (0 : ℚ) < input.quantity := not_le.mp hq
      have h1n : ¬input.quantity ≤ 0 := hq
      by_cases hcap : b ≠ 0 ∧ b < input.quantity
      · have h2 : ¬input.quantity ≤ b := not_le.mpr hcap.2
        simp [h1n, hcap, h1, h2, hcap.1]
      · push_neg at hcap
        by_cases hb0 : b = 0
        · simp [h1n, h1, hb0]
        · have h2 : input.quantity ≤ b := hcap hb0
          simp [h1n, h1, hb0, h2, hcap]

theorem itemErrors_eq_nil_iff (item : MatchedItem) (input : ItemInput) :
    itemErrors item input = [] ↔
      (!input.selected ||
        (decide (0 < input.quantity) &&
          (match item.billable_quantity with
           | some b => b == 0 || decide (input.quantity ≤ b)
           | none => true) &&
          gstFieldsPresentB item input)) = true := by
  unfold itemErrors
  cases hsel : input.selected
  · simp
  · simp only [Bool.not_true, Bool.false_or, if_true]
    rw [List.append_eq_nil, quantityErrors_eq_nil_iff, gstErrors_eq_nil_iff]
    simp [Bool.and_eq_true]

theorem itemErrorsFor_eq_nil_iff (inputs : List ((Int × Int) × ItemInput))
    (item : MatchedItem) :
    itemErrorsFor inputs item = [] ↔ amendedItemOkB inputs item = true := by
  unfold itemErrorsFor amendedItemOkB
  rcases lookupInput inputs (item.bill_index, item.order_index) with _ | input
  · simp
  · exact itemErrors_eq_nil_iff item input

/-- C3 (amended): the pre-persistence validation accumulates the
violations of every matched item (it does not stop at the first one: the
errors of each item and the empty-selection error all reach the returned
list), and the returned list is empty exactly when the amended rule set
holds: every selected item has a positive quantity, a quantity at most
its billable quantity when the billable quantity is present and nonzero,
and the rate fields of its GST regime, and at least one item is
selected. -/
theorem validateInputs_characterization :
    ∀ (items : List MatchedItem) (inputs : List ((Int × Int) × ItemInput)),
      (validateInputs items inputs = [] ↔ amendedRulesB items inputs = true) ∧
      (∀ item ∈ items, ∀ e ∈ itemErrorsFor inputs item, e ∈ validateInputs items inputs) ∧
      (selectedCount inputs = 0 → atLeastOneItemMsg ∈ validateInputs items inputs) := by
  intro items inputs
  refine ⟨?_, ?_, ?_⟩
  · unfold validateInputs amendedRulesB
    rw [List.append_eq_nil, List.flatMap_eq_nil_iff, Bool.and_eq_true, List.all_eq_true]
    constructor
    · rintro ⟨hall, hsel⟩
      refine ⟨fun item hmem => (itemErrorsFor_eq_nil_iff inputs item).mp (hall _ hmem), ?_⟩
      by_cases h0 : selectedCount inputs = 0
      · rw [if_pos h0] at hsel
        exact absurd hsel (by simp)
      · simp [h0]
    · rintro ⟨hall, hsel⟩
      refine ⟨fun item hmem => (itemErrorsFor_eq_nil_iff inputs item).mpr (hall _ hmem), ?_⟩
      have h0 : ¬selectedCount inputs = 0 := by
        intro h
        rw [h] at hsel
        exact absurd hsel (by simp)
      rw [if_neg h0]
  · intro item hmem e he
    exact List.mem_append_left _ (List.mem_flatMap.mpr ⟨item, hmem, he⟩)
  · intro h0
    apply List.mem_append_right
    rw [if_pos h0]
    exact List.mem_singleton.mpr rfl

/-- C3 counterexample: for a selected item with billable quantity 0 and
requested quantity 5, the validation returns no error although the
claimed rule `requested quantity ≤ billable quantity` is violated, so
`returned list empty iff all claimed rules hold` is false. -/
theorem validateInputs_claimed_rules_counterexample :
    validateInputs c3Items c3Inputs = [] ∧ claimedRulesB c3Items c3Inputs = false := by
  exact ⟨by decide, by decide⟩

/-- Witness for the amended C3: the zero-billable instance satisfies the
amended rule set (its validation is empty), and on an empty input record
the empty-selection message is returned. -/
theorem validateInputs_characterization_witness :
    amendedRulesB c3Items c3Inputs = true ∧
    atLeastOneItemMsg ∈ validateInputs [] [] :=
  ⟨((validateInputs_characterization c3Items c3Inputs).1).mp (by decide),
    (validateInputs_characterization [] []).2.2 (by decide)⟩

/-- C7: when no entry of the input record is selected (in particular
when it is empty), the submit is rejected with the validation errors,
which include the message that at least one item must be selected, and
no `saveDraft` request is issued, so the status of the Document is not
touched. -/
theorem empty_selection_rejected :
    ∀ (items : List MatchedItem) (inputs : List ((Int × Int) × ItemInput)),
      selectedCount inputs = 0 →
      handleSubmit items inputs =
        SubmitResult.validationFailed (validateInputs items inputs) ∧
        atLeastOneItemMsg ∈ validateInputs items inputs := by
  intro items inputs h0
  have hmem : atLeastOneItemMsg ∈ validateInputs items inputs :=
    (validateInputs_characterization items inputs).2.2 h0
  constructor
  · unfold handleSubmit
    rw [if_pos (List.length_pos.mpr (List.ne_nil_of_mem hmem))]
  · exact hmem

/-- Witness for C7: the empty selection `items=[]` is rejected and the
at-least-one-item message is among the returned errors. -/
theorem empty_selection_rejected_witness :
    handleSubmit [] [] = SubmitResult.validationFailed (validateInputs [] []) ∧
    atLeastOneItemMsg ∈ validateInputs [] [] :=
  empty_selection_rejected [] [] (by decide)

end ValidationClaims

section BoundaryClaims

attribute [local semireducible] Rat.mul Rat.add Rat.sub Rat.inv

theorem perFileRejected_eq_nil_iff (files : List UploadFile) :
    perFileRejected files = [] ↔ ∀ f ∈ files, classifyFile f = none := by
  unfold perFileRejected
  rw [List.filterMap_eq_nil_iff]
  constructor
  · intro h f hf
    have := h f hf
    rcases hc : classifyFile f with _ | r
    · rfl
    · rw [hc] at this
      exact absurd this (by simp)
  · intro h f hf
    rw [h f hf]
    rfl

theorem perFileAccepted_all (files : List UploadFile)
    (h : ∀ f ∈ files, classifyFile f = none) : perFileAccepted files = files := by
  unfold perFileAccepted
  apply List.filter_eq_self.mpr
  intro a ha
  simp [h a ha]

theorem perFileRejected_reason {files : List UploadFile} {g : UploadFile}
    {r : RejectReason} (h : (g, r) ∈ perFileRejected files) :
    classifyFile g = some r := by
  unfold perFileRejected at h
  rw [List.mem_filterMap] at h
  obtain ⟨a, ha, heq⟩ := h
  rcases hc : classifyFile a with _ | ra
  · rw [hc] at heq
    exact absurd heq (by simp)
  · rw [hc] at heq
    simp at heq
    obtain ⟨hag, har⟩ := heq
    subst hag
    rw [hc, har]

theorem classifyFile_reason {f : UploadFile} {r : RejectReason}
    (h : classifyFile f = some r) :
    r = RejectReason.fileTooLarge ∨ r = RejectReason.fileInvalidType := by
  unfold classifyFile at h
  split_ifs at h
  all_goals first
    | (exact Option.noConfusion h)
    | (injection h with h2
       exact Or.inl h2.symm)
    | (injection h with h2
       exact Or.inr h2.symm)

theorem dropzonePartition_multi {files : List UploadFile}
    (hlen : 1 < (perFileAccepted files).length) :
    dropzoneAccepted files = [] ∧
    dropzoneRejected files =
      perFileRejected files ++
        (perFileAccepted files).map (fun f => (f, RejectReason.tooManyFiles)) := by
  unfold dropzoneAccepted dropzoneRejected dropzonePartition
  rw [if_pos hlen]
  exact ⟨rfl, rfl⟩

theorem dropzonePartition_single {files : List UploadFile}
    (hlen : ¬1 < (perFileAccepted files).length) :
    dropzoneAccepted files = perFileAccepted files ∧
    dropzoneRejected files = perFileRejected files := by
  unfold dropzoneAccepted dropzoneRejected dropzonePartition
  rw [if_neg hlen]
  exact ⟨rfl, rfl⟩

/-- C8 (amended): an upload request is issued only for a drop consisting
of exactly one file with an allowed extension and size at most the 5 MB
cap; any drop containing an individually invalid file (oversize or
disallowed type) produces an inline error and no upload request; but a
drop of two or more individually valid files is silently ignored rather
than rejected with an error: react-dropzone rejects them all with the
collective code `too-many-files`, which `onDrop` does not map, and the
accepted list is empty, so the component returns without an error and
without an upload request. In every out-of-range case nothing is
uploaded, so no storage write occurs. -/
theorem upload_boundary_guards :
    (∀ (files : List UploadFile) (f : UploadFile),
      submitFiles files = UploadAction.uploadRequest f →
      f.ext ∈ ALLOWED_EXTENSIONS ∧ f.size ≤ MAX_FILE_SIZE ∧ files = [f]) ∧
    (∀ files : List UploadFile,
      (∃ f ∈ files, classifyFile f ≠ none) →
      ∃ msg, submitFiles files = UploadAction.showError msg) ∧
    (∀ files : List UploadFile,
      (∀ f ∈ files, classifyFile f = none) → 1 < files.length →
      submitFiles files = UploadAction.noAction) ∧
    (∀ f : UploadFile, classifyFile f = none →
      submitFiles [f] = UploadAction.uploadRequest f) := by
  refine ⟨?_, ?_, ?_, ?_⟩
  · intro files f h
    unfold submitFiles at h
    by_cases hlen : 1 < (perFileAccepted files).length
    · obtain ⟨ha, hr⟩ := dropzonePartition_multi hlen
      rw [ha, hr] at h
      exfalso
      rcases hrc : perFileRejected files with _ | ⟨⟨g, reason⟩, rest⟩
      · rw [hrc, List.nil_append] at h
        rcases hac : perFileAccepted files with _ | ⟨a0, arest⟩
        · rw [hac] at hlen
          simp at hlen
        · rw [hac] at h
          simp [onDrop] at h
      · rw [hrc] at h
        cases reason <;> simp [onDrop] at h
    · obtain ⟨ha, hr⟩ := dropzonePartition_single hlen
      rw [ha, hr] at h
      rcases hrc : perFileRejected files with _ | ⟨⟨g, reason⟩, rest⟩
      · rw [hrc] at h
        have hall : ∀ x ∈ files, classifyFile x = none :=
          (perFileRejected_eq_nil_iff files).mp hrc
        have hfa : perFileAccepted files = files := perFileAccepted_all files hall
        rw [hfa] at h hlen
        rcases hfc : files with _ | ⟨f0, frest⟩
        · rw [hfc] at h
          simp [onDrop] at h
        · rw [hfc] at h hlen
          simp only [onDrop, if_neg hlen, UploadAction.uploadRequest.injEq] at h
          have hrest : frest = [] := by
            simp only [List.length_cons, not_lt] at hlen
            have hz : frest.length = 0 := by omega
            exact List.length_eq_zero.mp hz
          have hvalid : classifyFile f0 = none := by
            apply hall
            rw [hfc]
            exact List.mem_cons_self _ _
          rw [← h]
          unfold classifyFile at hvalid
          by_cases he : f0.ext ∈ ALLOWED_EXTENSIONS
          · rw [if_pos he] at hvalid
            by_cases hsize : MAX_FILE_SIZE < f0.size
            · rw [if_pos hsize] at hvalid
              exact absurd hvalid (by simp)
            · refine ⟨he, by omega, ?_⟩
              rw [hrest]
          · rw [if_neg he] at hvalid
            exact absurd hvalid (by simp)
      · rw [hrc] at h
        have hgr : classifyFile g = some reason :=
          perFileRejected_reason (by rw [hrc]; exact List.mem_cons_self _ _)
        exfalso
        rcases classifyFile_reason hgr with h1 | h1 <;> subst h1 <;> simp [onDrop] at h
  · intro files hex
    obtain ⟨f0, hf0, hf0ne⟩ := hex
    have hne : perFileRejected files ≠ [] := by
      intro hnil
      exact hf0ne ((perFileRejected_eq_nil_iff files).mp hnil f0 hf0)
    obtain ⟨p, rest, heq⟩ := List.exists_cons_of_ne_nil hne
    rcases p with ⟨g, reason⟩
    have hgr : classifyFile g = some reason :=
      perFileRejected_reason (by rw [heq]; exact List.mem_cons_self _ _)
    unfold submitFiles
    by_cases hlen : 1 < (perFileAccepted files).length
    · obtain ⟨ha, hr⟩ := dropzonePartition_multi hlen
      rw [ha, hr, heq]
      rcases classifyFile_reason hgr with h1 | h1 <;> subst h1
      · exact ⟨sizeErrorMsg, by simp [onDrop]⟩
      · exact ⟨typeErrorMsg, by simp [onDrop]⟩
    · obtain ⟨ha, hr⟩ := dropzonePartition_single hlen
      rw [ha, hr, heq]
      rcases classifyFile_reason hgr with h1 | h1 <;> subst h1
      · exact ⟨sizeErrorMsg, by simp [onDrop]⟩
      · exact ⟨typeErrorMsg, by simp [onDrop]⟩
  · intro files hall hlen
    have hfa : perFileAccepted files = files := perFileAccepted_all files hall
    have hfr : perFileRejected files = [] := (perFileRejected_eq_nil_iff files).mpr hall
    have hlen2 : 1 < (perFileAccepted files).length := by rw [hfa]; exact hlen
    unfold submitFiles
    obtain ⟨ha, hr⟩ := dropzonePartition_multi hlen2
    rw [ha, hr, hfr, hfa, List.nil_append]
    rcases hfc : files with _ | ⟨f0, frest⟩
    · rw [hfc] at hlen
      simp at hlen
    · simp [onDrop]
  · intro f h
    unfold submitFiles
    have h1 : perFileAccepted [f] = [f] := by simp [perFileAccepted, h]
    have h2 : perFileRejected [f] = [] := by simp [perFileRejected, h]
    have hlen : ¬1 < (perFileAccepted [f]).length := by
      rw [h1]
      simp
    obtain ⟨ha, hr⟩ := dropzonePartition_single hlen
    rw [ha, hr, h1, h2]
    simp [onDrop]

/-- C8 counterexample: a drop of two individually valid PDF files is
silently ignored.  Under `multiple: false` react-dropzone rejects both
with the collective code `too-many-files` and empties the accepted
list; `onDrop` maps neither rejection to a message and then sees no
accepted file, so the component shows no inline error (its multi-file
error branch is unreachable) and issues no upload request.  The claim
that every multi-file drop is rejected with a descriptive error is
therefore false. -/
theorem multi_file_drop_silently_ignored :
    1 < ([validPdfFile, secondPdfFile] : List UploadFile).length ∧
    classifyFile validPdfFile = none ∧
    classifyFile secondPdfFile = none ∧
    submitFiles [validPdfFile, secondPdfFile] = UploadAction.noAction := by
  exact ⟨by decide, by decide, by decide, by decide⟩

/-- Witness for the amended C8: a single 1 KB PDF is uploaded, a 6 MB
PNG yields an inline error with no upload request, and two valid PDF
files are silently dropped. -/
theorem upload_boundary_guards_witness :
    submitFiles [validPdfFile] = UploadAction.uploadRequest validPdfFile ∧
    (∃ msg, submitFiles [oversizePngFile] = UploadAction.showError msg) ∧
    submitFiles [validPdfFile, secondPdfFile] = UploadAction.noAction :=
  ⟨upload_boundary_guards.2.2.2 validPdfFile (by decide),
    upload_boundary_guards.2.1 [oversizePngFile]
      ⟨oversizePngFile, by simp, by decide⟩,
    upload_boundary_guards.2.2.1 [validPdfFile, secondPdfFile]
      (by decide) (by decide)⟩

theorem resolveFrom_spec : ∀ (ps used : List MatchPair),
    (∀ p ∈ resolveFrom used ps, ∀ u ∈ used, conflictB p u = false) ∧
    List.Pairwise (fun a b => conflictB b a = false) (resolveFrom used ps) := by
  intro ps
  induction ps with
  | nil =>
    intro used
    exact ⟨by simp [resolveFrom], by simp [resolveFrom]⟩
  | cons p rest ih =>
    intro used
    by_cases hc : used.any (conflictB p) = true
    · unfold resolveFrom
      rw [if_pos hc]
      exact ih used
    · unfold resolveFrom
      rw [if_neg hc]
      obtain ⟨h1, h2⟩ := ih (p :: used)
      have hp_used : ∀ u ∈ used, conflictB p u = false := by
        intro u hu
        rcases Bool.eq_false_or_eq_true (conflictB p u) with h | h
        · exact absurd (List.any_eq_true.mpr ⟨u, hu, h⟩) hc
        · exact h
      constructor
      · intro q hq u hu
        rcases List.mem_cons.mp hq with rfl | hq2
        · exact hp_used u hu
        · exact h1 q hq2 u (List.mem_cons_of_mem _ hu)
      · exact List.Pairwise.cons (fun b hb => h1 b hb p (List.mem_cons_self _ _)) h2

/-- C2: the resolved match set is an injective partial function in both
directions: over the whole output of `resolveMatches`, no bill index and
no order index appears twice, whatever proposal list the reasoning
service returned. -/
theorem resolveMatches_injective :
    ∀ proposals : List MatchPair,
      List.Pairwise
        (fun a b => a.bill_index ≠ b.bill_index ∧ a.order_index ≠ b.order_index)
        (resolveMatches proposals) := by
  intro proposals
  have h := (resolveFrom_spec proposals []).2
  unfold resolveMatches
  apply h.imp
  intro a b hab
  unfold conflictB at hab
  simp only [Bool.or_eq_false_iff, beq_eq_false_iff_ne] at hab
  exact ⟨fun hx => hab.1 hx.symm, fun hx => hab.2 hx.symm⟩

/-- Witness for C2: a concrete proposal list with contested indices
resolves to an injective match set. -/
theorem resolveMatches_injective_witness :
    List.Pairwise
      (fun a b => a.bill_index ≠ b.bill_index ∧ a.order_index ≠ b.order_index)
      (resolveMatches [⟨0, 0⟩, ⟨0, 1⟩, ⟨1, 0⟩, ⟨1, 1⟩]) :=
  resolveMatches_injective [⟨0, 0⟩, ⟨0, 1⟩, ⟨1, 0⟩, ⟨1, 1⟩]

/-- C4: after a draft bill is saved for a document, saving a second
draft for the same document fails with `duplicateDraftError`; the failed
attempt performs no write, so the first draft and its items are still in
the store, and the one-draft-per-document invariant (distinct `doc_id`)
is preserved by the successful save. -/
theorem saveDraft_duplicate_guard :
    ∀ (store store1 : List DraftBill) (d d2 : DraftBill),
      d2.doc_id = d.doc_id →
      saveDraft store d = Except.ok store1 →
      saveDraft store1 d2 = Except.error DraftSaveError.duplicateDraftError ∧
        d ∈ store1 ∧
        (List.Pairwise (fun a b => a.doc_id ≠ b.doc_id) store →
          List.Pairwise (fun a b => a.doc_id ≠ b.doc_id) store1) := by
  intro store store1 d d2 hdoc h1
  unfold saveDraft at h1 ⊢
  by_cases hany : store.any (fun b => b.doc_id == d.doc_id) = true
  · rw [if_pos hany] at h1
    exact absurd h1 (by simp)
  · rw [if_neg hany] at h1
    have hstore1 : store ++ [d] = store1 := by
      cases h1
      rfl
    subst hstore1
    have hany2 : (store ++ [d]).any (fun b => b.doc_id == d2.doc_id) = true :=
      List.any_eq_true.mpr ⟨d, by simp, by simp [hdoc]⟩
    refine ⟨?_, by simp, ?_⟩
    · rw [if_pos hany2]
    · intro hp
      rw [List.pairwise_append]
      refine ⟨hp, List.pairwise_singleton _ _, ?_⟩
      intro a ha b hb
      rw [List.mem_singleton] at hb
      subst hb
      intro hcontra
      exact absurd (List.any_eq_true.mpr ⟨a, ha, by simp [hcontra]⟩) hany

/-- Witness for C4: saving `w4dup` after `w4draft` (same `doc_id`) fails
with `duplicateDraftError` and the first draft is still stored. -/
theorem saveDraft_duplicate_guard_witness :
    saveDraft [w4draft] w4dup = Except.error DraftSaveError.duplicateDraftError ∧
    w4draft ∈ [w4draft] := by
  have h := saveDraft_duplicate_guard [] [w4draft] w4draft w4dup rfl rfl
  exact ⟨h.1, h.2.1⟩

theorem sameDocKey_eq_true_iff (a b : DocRow) :
    sameDocKey a b = true ↔
      a.job_thread_id = b.job_thread_id ∧ a.page_number = b.page_number := by
  simp [sameDocKey]

theorem sameDocKey_eq_false_iff (a b : DocRow) :
    sameDocKey a b = false ↔
      ¬(a.job_thread_id = b.job_thread_id ∧ a.page_number = b.page_number) := by
  rw [← sameDocKey_eq_true_iff, Bool.eq_false_iff]

/-- C5: the `(job_thread_id, page_number)` key stays unique under the
document upsert, the upserted row is present afterwards, and re-running
the processor for an already-processed page leaves the row count
unchanged (it overwrites instead of duplicating). -/
theorem upsertDoc_unique_key :
    ∀ (docs : List DocRow) (d : DocRow),
      List.Pairwise (fun a b => sameDocKey a b = false) docs →
      List.Pairwise (fun a b => sameDocKey a b = false) (upsertDoc docs d) ∧
        d ∈ upsertDoc docs d ∧
        ((∃ x ∈ docs, sameDocKey x d = true) →
          (upsertDoc docs d).length = docs.length) := by
  intro docs d hp
  unfold upsertDoc
  by_cases hany : docs.any (fun x => sameDocKey x d) = true
  · rw [if_pos hany]
    obtain ⟨x0, hx0mem, hx0⟩ := List.any_eq_true.mp hany
    refine ⟨?_, ?_, ?_⟩
    · rw [List.pairwise_map]
      apply hp.imp
      intro a b hab
      by_cases hak : sameDocKey a d = true
      · by_cases hbk : sameDocKey b d = true
        · exfalso
          obtain ⟨ha1, ha2⟩ := (sameDocKey_eq_true_iff a d).mp hak
          obtain ⟨hb1, hb2⟩ := (sameDocKey_eq_true_iff b d).mp hbk
          exact (sameDocKey_eq_false_iff a b).mp hab ⟨by omega, by omega⟩
        · rw [if_pos hak, if_neg hbk]
          rw [sameDocKey_eq_false_iff]
          rintro ⟨hd1, hd2⟩
          exact hbk ((sameDocKey_eq_true_iff b d).mpr ⟨by omega, by omega⟩)
      · by_cases hbk : sameDocKey b d = true
        · rw [if_neg hak, if_pos hbk]
          rw [sameDocKey_eq_false_iff]
          obtain ⟨hb1, hb2⟩ := (sameDocKey_eq_true_iff b d).mp hbk
          rintro ⟨hd1, hd2⟩
          exact hak ((sameDocKey_eq_true_iff a d).mpr ⟨by omega, by omega⟩)
        · rw [if_neg hak, if_neg hbk]
          exact hab
    · rw [List.mem_map]
      exact ⟨x0, hx0mem, by simp [hx0]⟩
    · intro _
      rw [List.length_map]
  · rw [if_neg hany]
    have hall : ∀ x ∈ docs, sameDocKey x d = false := by
      intro x hx
      rcases Bool.eq_false_or_eq_true (sameDocKey x d) with h | h
      · exact absurd (List.any_eq_true.mpr ⟨x, hx, h⟩) hany
      · exact h
    refine ⟨?_, by simp, ?_⟩
    · rw [List.pairwise_append]
      refine ⟨hp, List.pairwise_singleton _ _, ?_⟩
      intro a ha b hb
      rw [List.mem_singleton] at hb
      subst hb
      exact hall a ha
    · rintro ⟨x, hx, hxkey⟩
      rw [hall x hx] at hxkey
      exact absurd hxkey (by simp)

/-- Witness for C5: re-running the page processor on the stored page 1
of job 1 keeps a single row and stores the new version. -/
theorem upsertDoc_unique_key_witness :
    (upsertDoc [w5doc] w5new).length = 1 ∧ w5new ∈ upsertDoc [w5doc] w5new := by
  have h := upsertDoc_unique_key [w5doc] w5new (List.pairwise_singleton _ _)
  exact ⟨h.2.2 ⟨w5doc, by simp, by decide⟩, h.2.1⟩

/-- C6: every job status is one of the four values admitted by the
`chk_status` constraint; `processed` admits no transition at all; the
only transition out of `error` is the external retry back to `in_queue`;
every transition strictly increases the progress rank except that single
retry edge; and the jobs table offers the retry button exactly for
status `error`. -/
theorem jobTransition_monotonic :
    (∀ s : JobStatus, statusName s ∈ chkStatusAllowed) ∧
    (∀ e : JobEvent, jobTransition JobStatus.processed e = none) ∧
    (∀ (e : JobEvent) (s : JobStatus),
      jobTransition JobStatus.error e = some s →
      e = JobEvent.retry ∧ s = JobStatus.in_queue) ∧
    (∀ (s s2 : JobStatus) (e : JobEvent),
      jobTransition s e = some s2 →
      statusRank s < statusRank s2 ∨
        (s = JobStatus.error ∧ e = JobEvent.retry ∧ s2 = JobStatus.in_queue)) ∧
    (∀ s : JobStatus, retryButtonShown (statusName s) = true ↔ s = JobStatus.error) := by
  refine ⟨?_, ?_, ?_, ?_, ?_⟩ <;> decide

/-- Witness for C6: the retry edge is admitted from `error`, strictly
rank-increasing edges exist, and the retry button is shown for an
errored job. -/
theorem jobTransition_monotonic_witness :
    (JobEvent.retry = JobEvent.retry ∧ JobStatus.in_queue = JobStatus.in_queue) ∧
    retryButtonShown (statusName JobStatus.error) = true :=
  ⟨jobTransition_monotonic.2.2.1 JobEvent.retry JobStatus.in_queue (by decide),
    (jobTransition_monotonic.2.2.2.2 JobStatus.error).mpr rfl⟩

end BoundaryClaims
